import Mathlib

/-!
Verification development for the chapter-content normalizer
`formatChapterContent` of the ai-book-weaver repository
(`ChapterPreview`, src/unnamed/part_003, lines 33-318).

The JavaScript function is embedded shallowly: strings are processed as
their underlying character lists, the regular expressions of the source
are translated into explicit character scanners with the same matching
semantics, and the browser `DOMParser` is modelled by an explicit
document-fragment tree type.  The whitespace class used throughout is
the ASCII part of JavaScript's regex class backslash-s; all concrete
inputs appearing in theorems are ASCII, where the two classes agree.
-/

/-- ASCII part of JavaScript's whitespace class (space, tab, newline,
carriage return, vertical tab, form feed). -/
def isJsWs (c : Char) : Bool :=
  c = ' ' || c = '\t' || c = '\n' || c = '\r' || c = '\x0b' || c = '\x0c'

/-- Drop trailing whitespace characters (JavaScript `trimEnd`). -/
def dropEndWs (cs : List Char) : List Char :=
  (cs.reverse.dropWhile isJsWs).reverse

/-- JavaScript `trim` on a character list. -/
def trimChars (cs : List Char) : List Char :=
  dropEndWs (cs.dropWhile isJsWs)

/-- JavaScript `String.prototype.trim`. -/
def jsTrim (s : String) : String := ⟨trimChars s.data⟩

/-- Dropping a prefix never lengthens a list (termination helper). -/
theorem dropWhile_len_le {α : Type} (p : α → Bool) :
    ∀ l : List α, (l.dropWhile p).length ≤ l.length
  | [] => Nat.le_refl _
  | a :: l => by
    by_cases h : p a
    · simp only [List.dropWhile, h]
      exact Nat.le_succ_of_le (dropWhile_len_le p l)
    · simp only [List.dropWhile, h]
      exact Nat.le_refl _

/-- The global replace of runs of whitespace by a single space,
`replace(/\s+/g, ' ')` from the source's `norm` helper (part_003
lines 54 and 302). -/
def collapseGo : Nat → List Char → List Char
  | 0, cs => cs
  | _, [] => []
  | fuel + 1, c :: cs =>
    if isJsWs c then ' ' :: collapseGo fuel (cs.dropWhile isJsWs)
    else c :: collapseGo fuel cs

/-- The collapse scan applied with sufficient fuel (each step consumes
at least one character, so the length suffices). -/
def collapseChars (cs : List Char) : List Char := collapseGo cs.length cs

/-- The source's `norm`: collapse whitespace runs to single spaces, trim,
lower-case (part_003 lines 54, 208, 302). -/
def normText (s : String) : String :=
  ⟨(trimChars (collapseChars s.data)).map Char.toLower⟩

/-- One character of `escapeHtml` (part_003 lines 36-42).  The source
performs five sequential global replaces (amp, lt, gt, quot, apostrophe);
since the first replace handles every ampersand of the input before the
later replaces introduce new ones, the composition equals this
single character-wise map. -/
def escapeChar (c : Char) : List Char :=
  if c = '&' then "&amp;".data
  else if c = '<' then "&lt;".data
  else if c = '>' then "&gt;".data
  else if c = '"' then "&quot;".data
  else if c = '\'' then "&#039;".data
  else [c]

/-- The source's `escapeHtml` helper (part_003 lines 36-42). -/
def escapeHtml (s : String) : String := ⟨(s.data.map escapeChar).flatten⟩

/-- HTML fragment-serializer escaping of a text node (used when the code
reads back `doc.body.innerHTML`): ampersand, less-than and greater-than
become entities; quotes are serialized verbatim inside text. -/
def domEscapeTextChar (c : Char) : List Char :=
  if c = '&' then "&amp;".data
  else if c = '<' then "&lt;".data
  else if c = '>' then "&gt;".data
  else [c]

/-- Serializer escaping for a whole text node. -/
def domEscapeText (s : String) : String := ⟨(s.data.map domEscapeTextChar).flatten⟩

/-- Serializer escaping inside a double-quoted attribute value
(ampersand and double quote). -/
def domEscapeAttrChar (c : Char) : List Char :=
  if c = '&' then "&amp;".data
  else if c = '"' then "&quot;".data
  else [c]

/-- Serializer escaping for an attribute value. -/
def domEscapeAttr (s : String) : String := ⟨(s.data.map domEscapeAttrChar).flatten⟩

/-- `split(/\r?\n/)` (part_003 line 231): break at each newline or
CRLF pair; a lone carriage return does not separate. -/
def splitLinesChars : List Char → List (List Char)
  | [] => [[]]
  | '\r' :: '\n' :: rest => [] :: splitLinesChars rest
  | '\n' :: rest => [] :: splitLinesChars rest
  | c :: rest =>
    match splitLinesChars rest with
    | [] => [[c]]
    | l :: ls => (c :: l) :: ls

/-- `split(/\r?\n/)` on strings; the empty string yields one empty line,
as in JavaScript. -/
def splitLines (s : String) : List String := (splitLinesChars s.data).map (fun l => ⟨l⟩)

/-- Scanner for the lazy group of `replace(/\*\*(.+?)\*\*/g, '$1')`
(part_003 line 229): starting inside a candidate match, find the
earliest closing double star; the dot excludes line terminators, so a
newline or carriage return aborts the candidate. -/
def boldClose (acc : List Char) : List Char → Option (List Char × List Char)
  | '*' :: '*' :: rest => some (acc.reverse, rest)
  | c :: rest =>
    if c = '\n' || c = '\r' then none else boldClose (c :: acc) rest
  | [] => none

/-- Left-to-right global scan of `replace(/\*\*(.+?)\*\*/g, '$1')`: on a
double star, the lazy body takes at least one character and ends at the
earliest following double star; on failure the engine advances one
character.  `fuel` bounds the recursion; it is called with the length of
the list, which every step (consuming at least one character per unit of
fuel) respects. -/
def stripBoldGo : Nat → List Char → List Char
  | 0, cs => cs
  | _, [] => []
  | fuel + 1, '*' :: '*' :: c :: rest =>
    if c = '\n' || c = '\r' then '*' :: stripBoldGo fuel ('*' :: c :: rest)
    else
      match boldClose [c] rest with
      | some (content, rest') => content ++ stripBoldGo fuel rest'
      | none => '*' :: stripBoldGo fuel ('*' :: c :: rest)
  | fuel + 1, c :: rest => c :: stripBoldGo fuel rest

/-- The markdown-bold stripping step `text.replace(/\*\*(.+?)\*\*/g, '$1')`
(part_003 line 229). -/
def stripBold (s : String) : String := ⟨stripBoldGo s.data.length s.data⟩

/-- ASCII digit test (regex class backslash-d). -/
def isDigitChar (c : Char) : Bool := '0' ≤ c && c ≤ '9'

/-- After the first dotted group of `/^\d+(\.\d+)+\s+.+/` (part_003 line
263): zero or more further dot-digits groups, then at least one
whitespace character and a non-empty remainder.  The character classes
are disjoint, so greedy scanning needs no backtracking; the predicate is
only applied to trimmed lines, where the final `.+` cannot fail on a
trailing line terminator. -/
def dottedMoreGo : Nat → List Char → Bool
  | 0, _ => false
  | fuel + 1, '.' :: rest =>
    !(rest.takeWhile isDigitChar).isEmpty && dottedMoreGo fuel (rest.dropWhile isDigitChar)
  | _, cs => !(cs.takeWhile isJsWs).isEmpty && !(cs.dropWhile isJsWs).isEmpty

/-- The group scan with sufficient fuel (every group consumes at least
two characters). -/
def dottedMore (cs : List Char) : Bool := dottedMoreGo cs.length cs

/-- Test of the dotted numeric section pattern `/^\d+(\.\d+)+\s+.+/`
(part_003 line 263), e.g. matching a line of the shape
1.1 Defining Enterprise AI. -/
def isDottedHeading (s : String) : Bool :=
  let cs := s.data
  !(cs.takeWhile isDigitChar).isEmpty &&
    (match cs.dropWhile isDigitChar with
     | '.' :: rest =>
       !(rest.takeWhile isDigitChar).isEmpty && dottedMore (rest.dropWhile isDigitChar)
     | _ => false)

/-- `exec` of the bullet pattern `/^[-*]\s+(.+)$/` (part_003 line 270):
a dash or star, at least one whitespace character, then the captured
remainder, which must be non-empty and (since the dot excludes line
terminators and the anchor is end-of-string) free of newlines and
carriage returns. -/
def bulletContent (s : String) : Option String :=
  match s.data with
  | c :: rest =>
    if c = '-' || c = '*' then
      if (rest.takeWhile isJsWs).isEmpty then none
      else
        let body := rest.dropWhile isJsWs
        if body.isEmpty || body.any (fun d => d = '\n' || d = '\r') then none
        else some ⟨body⟩
    else none
  | [] => none

/-- Two adjacent literal spaces, `trimmed.includes('  ')`
(part_003 line 282). -/
def hasDoubleSpace : List Char → Bool
  | ' ' :: ' ' :: _ => true
  | _ :: rest => hasDoubleSpace rest
  | [] => false

/-- The short-capitalized-line subheading heuristic (part_003 line 282):
non-empty, shorter than 80 characters, not ending in sentence
punctuation, starting with an ASCII capital, and containing no double
space. -/
def isSubheading (s : String) : Bool :=
  let cs := s.data
  decide (0 < cs.length) && decide (cs.length < 80) &&
    (match cs.getLast? with
     | some c => !(c = '.' || c = '!' || c = '?')
     | none => false) &&
    (match cs.head? with
     | some c => 'A' ≤ c && c ≤ 'Z'
     | none => false) &&
    !hasDoubleSpace cs

/-- Sentence terminator class of the regex `[^.!?]+[.!?]+(?=\s|$)`
(part_003 lines 91 and 185). -/
def isSentTerm (c : Char) : Bool := c = '.' || c = '!' || c = '?'

/-- Global scan of `match(/[^.!?]+[.!?]+(?=\s|$)/g)`: at each position a
maximal run of non-terminators must be followed by a maximal run of
terminators and a lookahead of whitespace or end of input; on failure
the scan advances past the failed candidate (no earlier restart can
succeed inside it).  `fuel` bounds the recursion and is instantiated
with the length of the list, which suffices since every step consumes at
least one character. -/
def sentScanGo : Nat → List Char → List (List Char)
  | 0, _ => []
  | _, [] => []
  | fuel + 1, cs =>
    let run := cs.takeWhile (fun c => !isSentTerm c)
    if run.isEmpty then sentScanGo fuel (cs.drop 1)
    else
      let after := cs.drop run.length
      if after.isEmpty then []
      else
        let terms := after.takeWhile isSentTerm
        let rest := after.drop terms.length
        match rest with
        | [] => [run ++ terms]
        | c :: _ =>
          if isJsWs c then (run ++ terms) :: sentScanGo fuel rest
          else sentScanGo fuel rest

/-- All matches of the sentence regex in a string. -/
def sentMatches (s : String) : List String :=
  (sentScanGo s.data.length s.data).map (fun l => ⟨l⟩)

/-- `text.match(...) || [text]` (part_003 lines 91 and 185): the list of
sentence matches, or the whole text when there is none. -/
def sentencesOf (s : String) : List String :=
  let m := sentMatches s
  if m.isEmpty then [s] else m

/-- The two-sentences-per-chunk grouping `slice(i, i + 2).join(' ').trim()`
of the loops at part_003 lines 92-100 and 190-195. -/
def chunkPairs : List String → List String
  | [] => []
  | [a] => [jsTrim a]
  | a :: b :: rest => jsTrim (a ++ " " ++ b) :: chunkPairs rest

/-- Case-insensitive literal match of a lowercase pattern at the head of
the input, returning the remainder. -/
def matchCi : List Char → List Char → Option (List Char)
  | [], cs => some cs
  | _ :: _, [] => none
  | p :: ps, c :: cs => if c.toLower = p then matchCi ps cs else none

/-- Scanner for `/^chapter\s*\d+\s*:\s*/i` (part_003 lines 56, 209, 303),
returning the remainder after the matched label. -/
def chapterLabelEnd (cs : List Char) : Option (List Char) :=
  match matchCi "chapter".data cs with
  | none => none
  | some r1 =>
    let r2 := r1.dropWhile isJsWs
    if (r2.takeWhile isDigitChar).isEmpty then none
    else
      match (r2.dropWhile isDigitChar).dropWhile isJsWs with
      | ':' :: r5 => some (r5.dropWhile isJsWs)
      | _ => none

/-- `t.replace(/^chapter\s*\d+\s*:\s*/i, '')`: strip a leading
Chapter-number label from a title, if present. -/
def stripChapterLabel (t : String) : String :=
  match chapterLabelEnd t.data with
  | some rest => ⟨rest⟩
  | none => t

/-- The normalized title-candidate list `[t, t minus the chapter label]`
mapped through `norm` (part_003 lines 55-58, 209, 303). -/
def titleCandidates (t : String) : List String :=
  [normText t, normText (stripChapterLabel t)]

/-! ### The plain-text path (part_003 lines 226-317)

The loop at lines 243-292 pushes tag strings onto `result`; a bullet run
is pushed as an opening `<ul>`, its `<li>` items, and a closing `</ul>`
(the `inList` flag guarantees the three always appear bracketed and are
closed before any other block and at end of input).  The block list
below records exactly those pushes, one constructor per emitted block,
holding the un-escaped trimmed line text; `serializeBlockSrc` renders
the very strings the source pushes, applying `escapeHtml` exactly where
the source does. -/

/-- Style attribute of plain-text-path primary headings (part_003 line 257). -/
def h2StylePlain : String :=
  "margin-top: 24px; margin-bottom: 10px; font-size: 1.5rem; font-weight: 800; border-bottom: 1px solid rgba(59,130,246,0.25); padding-bottom: 6px;"

/-- Style attribute of plain-text-path subheadings (part_003 lines 265, 286). -/
def h3StylePlain : String :=
  "margin-top: 18px; margin-bottom: 8px; font-size: 1.25rem; font-weight: 700; border-bottom: 1px solid rgba(59,130,246,0.2); padding-bottom: 4px;"

/-- Style attribute of plain-text-path paragraphs (part_003 line 291). -/
def pStylePlain : String := "margin: 8px 0; line-height: 1.7;"

/-- Style attribute of the regex-fallback list opener (part_003 line 176). -/
def ulStyleFallback : String := "margin: 12px 0; padding-left: 1.25rem; list-style: disc;"

/-- Styles set on existing elements in the DOM path (part_003 lines 77-80). -/
def h2StyleDom : String :=
  "margin-top:24px;margin-bottom:10px;font-size:1.5rem;font-weight:800;border-bottom:1px solid rgba(59,130,246,0.25);padding-bottom:6px;"

/-- DOM-path style for existing h3 elements (part_003 line 78). -/
def h3StyleDom : String :=
  "margin-top:18px;margin-bottom:8px;font-size:1.25rem;font-weight:700;border-bottom:1px solid rgba(59,130,246,0.2);padding-bottom:4px;"

/-- DOM-path style for paragraphs, both existing and synthesized
(part_003 lines 79, 96, 110). -/
def pStyleDom : String := "margin:8px 0;line-height:1.7;"

/-- DOM-path style for existing list elements (part_003 line 80). -/
def ulStyleDom : String := "margin:12px 0;padding-left:1.25rem;list-style:disc;"

/-- One block emitted by the plain-text path: a primary heading, a
subheading, a paragraph, or a whole bullet list with its items.  Text is
stored un-escaped; escaping happens at serialization, matching the
source, which escapes at push time. -/
inductive HBlock where
  | h2 (text : String)
  | h3 (text : String)
  | par (text : String)
  | ulist (items : List String)
deriving DecidableEq

/-- `closeListIfOpen` (part_003 lines 236-241): an open item buffer
becomes a finished list block. -/
def flushList : Option (List String) → List HBlock
  | none => []
  | some items => [HBlock.ulist items]

/-- The per-line loop of the plain-text path (part_003 lines 243-292),
as a recursion over the line list carrying the `firstHeadingDone` flag
and the open bullet list (`none` when `inList` is false). -/
def formatLines (firstHeadingDone : Bool) (cur : Option (List String)) :
    List String → List HBlock
  | [] => flushList cur
  | l :: ls =>
    let trimmed := jsTrim l
    if trimmed = "" then flushList cur ++ formatLines firstHeadingDone none ls
    else if firstHeadingDone = false then
      HBlock.h2 trimmed :: formatLines true cur ls
    else if isDottedHeading trimmed then
      flushList cur ++ (HBlock.h3 trimmed :: formatLines firstHeadingDone none ls)
    else
      match bulletContent trimmed with
      | some item =>
        formatLines firstHeadingDone (some ((cur.getD []) ++ [jsTrim item])) ls
      | none =>
        if isSubheading trimmed then
          flushList cur ++ (HBlock.h3 trimmed :: formatLines firstHeadingDone none ls)
        else
          flushList cur ++ (HBlock.par trimmed :: formatLines firstHeadingDone none ls)

/-- Join a list of strings with a separator (JavaScript `Array.join`). -/
def joinSep (sep : String) : List String → String
  | [] => ""
  | [x] => x
  | x :: xs => x ++ sep ++ joinSep sep xs

/-- Render one block exactly as the source pushes it onto `result`
(part_003 lines 257, 265, 273, 276, 286, 291); the items of a list
appear as the separate pushes they were, so they are joined by the same
newline `result.join('\n')` later inserts. -/
def serializeBlockSrc : HBlock → String
  | .h2 s => "<h2 style=\"" ++ h2StylePlain ++ "\">" ++ escapeHtml s ++ "</h2>"
  | .h3 s => "<h3 style=\"" ++ h3StylePlain ++ "\">" ++ escapeHtml s ++ "</h3>"
  | .par s => "<p style=\"" ++ pStylePlain ++ "\">" ++ escapeHtml s ++ "</p>"
  | .ulist items =>
    joinSep "\n" (["<ul>"] ++ items.map (fun i => "<li>" ++ escapeHtml i ++ "</li>") ++ ["</ul>"])

/-- `result.join('\n')` (part_003 line 296). -/
def builtOf (blocks : List HBlock) : String :=
  joinSep "\n" (blocks.map serializeBlockSrc)

/-- `textContent` of one top-level element of the built HTML, as
`DOMParser` produces it in `stripDup` (part_003 lines 300-312): entity
references decode back to the escaped characters, so a heading or
paragraph yields its stored text, and a list yields its items joined by
the newlines that stand between the `<ul>`, `<li>` and `</ul>` lines. -/
def blockTextContent : HBlock → String
  | .h2 s | .h3 s | .par s => s
  | .ulist items => joinSep "\n" ([""] ++ items ++ [""])

/-- Membership of a block's normalized text in the candidate list,
`candidates.includes(norm(first.textContent || ''))` (part_003 line 306). -/
def blockMatchesTitle (cands : List String) (b : HBlock) : Bool :=
  cands.contains (normText (blockTextContent b))

/-- The `while (doc.body.firstElementChild)` removal loop of `stripDup`
(part_003 lines 304-311) on the parsed block list: leading elements are
removed while they match; the loop stops at the first non-matching
element. -/
def stripDupBlocks (cands : List String) : List HBlock → List HBlock
  | [] => []
  | b :: bs => if blockMatchesTitle cands b then stripDupBlocks cands bs else b :: bs

/-- Serialization of one surviving block by `doc.body.innerHTML`
(part_003 line 312): the parser decoded the `escapeHtml` entities, and
the fragment serializer re-escapes only ampersand, less-than and
greater-than in text, leaving quotes plain. -/
def serializeBlockDom : HBlock → String
  | .h2 s => "<h2 style=\"" ++ h2StylePlain ++ "\">" ++ domEscapeText s ++ "</h2>"
  | .h3 s => "<h3 style=\"" ++ h3StylePlain ++ "\">" ++ domEscapeText s ++ "</h3>"
  | .par s => "<p style=\"" ++ pStylePlain ++ "\">" ++ domEscapeText s ++ "</p>"
  | .ulist items =>
    joinSep "\n" (["<ul>"] ++ items.map (fun i => "<li>" ++ domEscapeText i ++ "</li>") ++ ["</ul>"])

/-- `stripDup built` for the plain-text path (part_003 lines 297-317),
fused with the `DOMParser` round trip: parsing the built string yields
exactly the emitted blocks as body elements, separated by the
single-newline text nodes `join('\n')` put between them.  Removing the
first `k` elements leaves their `k` separator newlines at the front of
the body (`removeChild` takes only the element); when every element is
removed, the `n - 1` inner separators remain.  When `domOk` is false,
`new DOMParser()` throws and the `catch` returns the built string
unchanged; likewise when no title was supplied — or the empty string,
which is falsy under the source's `if (!t)` guard — `stripDup` returns
its input at once. -/
def stripDupBuilt (domOk : Bool) (blocks : List HBlock) (title : Option String) : String :=
  match title, domOk with
  | none, _ => builtOf blocks
  | some _, false => builtOf blocks
  | some t, true =>
    if t = "" then builtOf blocks
    else
      let rest := stripDupBlocks (titleCandidates t) blocks
      if rest.isEmpty then
        String.join (List.replicate (blocks.length - 1) "\n")
      else
        String.join (List.replicate (blocks.length - rest.length) "\n") ++
          joinSep "\n" (rest.map serializeBlockDom)

/-- The whole plain-text path of `formatChapterContent`
(part_003 lines 226-317). -/
def plainPath (domOk : Bool) (raw : String) (title : Option String) : String :=
  let lines := splitLines (stripBold (jsTrim raw))
  stripDupBuilt domOk (formatLines false none lines) title

/-- The heading-tag sniff at one position: `<`, `h` (either case), a
digit 1 to 6, then whitespace or `>` — the pattern `/<h[1-6][\s>]/i`
(part_003 line 44). -/
def headTagAt : List Char → Bool
  | a :: h :: d :: c :: _ =>
    a = '<' && (h = 'h' || h = 'H') && ('1' ≤ d && d ≤ '6') && (isJsWs c || c = '>')
  | _ => false

/-- Scan of the whole input for the heading-tag pattern. -/
def hasHeadScan : List Char → Bool
  | [] => false
  | c :: rest => headTagAt (c :: rest) || hasHeadScan rest

/-- `const hasHtmlHeadings = /<h[1-6][\s>]/i.test(raw)` (part_003 line 44). -/
def hasHtmlHeadings (raw : String) : Bool := hasHeadScan raw.data

/-! ### The DOM-structured path (part_003 lines 49-119)

The browser `DOMParser` and fragment serializer are modelled by an
explicit node tree.  `parseHtml` below is a model of
`parseFromString(raw, 'text/html').body` restricted to well-formed
ASCII fragments (the only inputs theorems evaluate it on); the tree
operations themselves are translated directly from the source. -/

/-- A node of the parsed fragment: a text node, or an element with its
tag (lower case, as the HTML parser normalizes it), attribute list and
children. -/
inductive DomNode where
  | text (s : String)
  | elem (tag : String) (attrs : List (String × String)) (children : List DomNode)

mutual

/-- `textContent` of one node: the concatenation of all text
descendants, in document order. -/
def textContentN : DomNode → String
  | .text s => s
  | .elem _ _ children => textContentL children

/-- `textContent` concatenated over a node list. -/
def textContentL : List DomNode → String
  | [] => ""
  | n :: ns => textContentN n ++ textContentL ns

end

/-- The `while (doc.body.firstElementChild)` duplicate-title loop of the
DOM path (part_003 lines 60-68).  `firstElementChild` skips text nodes,
and `removeChild(first)` removes only the element, so the loop removes
leading elements (leaving interleaved text nodes in place) while their
normalized text is among the candidates, and stops at the first
non-matching element; this recursion performs exactly those removals. -/
def stripLeadingElems (cands : List String) : List DomNode → List DomNode
  | [] => []
  | .text s :: rest => .text s :: stripLeadingElems cands rest
  | .elem tag attrs children :: rest =>
    if cands.contains (normText (textContentL children)) then
      stripLeadingElems cands rest
    else .elem tag attrs children :: rest

/-! `doc.body.querySelectorAll('h1').forEach(... el.remove())`
(part_003 lines 70-74): every h1 element, at any depth, whose
normalized text is among the candidates is removed with its subtree. -/
mutual

/-- One node under the h1 removal: a matching h1 vanishes with its
subtree, anything else keeps its place with its children filtered. -/
def removeH1sN (cands : List String) : DomNode → List DomNode
  | .text s => [.text s]
  | .elem tag attrs children =>
    if tag = "h1" && cands.contains (normText (textContentL children)) then []
    else [.elem tag attrs (removeH1sL cands children)]

/-- The h1 removal over a node list. -/
def removeH1sL (cands : List String) : List DomNode → List DomNode
  | [] => []
  | n :: ns => removeH1sN cands n ++ removeH1sL cands ns

end

/-- The h1 removal of part_003 lines 70-74, over the body children. -/
def removeH1s (cands : List String) (ns : List DomNode) : List DomNode :=
  removeH1sL cands ns

/-- `el.setAttribute('style', v)`: replace the existing style attribute
in place, or append one at the end (attribute names are unique on a DOM
element, so replacing the first occurrence is replacing the
occurrence). -/
def setAttrStyle (style : String) : List (String × String) → List (String × String)
  | [] => [("style", style)]
  | a :: as => if a.1 = "style" then ("style", style) :: as else a :: setAttrStyle style as

/-! `doc.body.querySelectorAll(tag).forEach(el => el.setAttribute('style', v))`
(part_003 lines 77-80), applied to every element of the tag at any depth. -/
mutual

/-- One node under the restyling pass. -/
def setStyleTagN (tag style : String) : DomNode → DomNode
  | .text s => .text s
  | .elem t a c =>
    .elem t (if t = tag then setAttrStyle style a else a) (setStyleTagL tag style c)

/-- The restyling pass over a node list. -/
def setStyleTagL (tag style : String) : List DomNode → List DomNode
  | [] => []
  | n :: ns => setStyleTagN tag style n :: setStyleTagL tag style ns

end

/-- The restyling pass of part_003 lines 77-80, over the body children. -/
def setStyleTag (tag style : String) (ns : List DomNode) : List DomNode :=
  setStyleTagL tag style ns

/-! `doc.body.querySelectorAll('br').forEach(br => br.replaceWith('\n'))`
(part_003 line 81). -/
mutual

/-- One node under the br replacement. -/
def replaceBrsN : DomNode → DomNode
  | .text s => .text s
  | .elem t a c => if t = "br" then .text "\n" else .elem t a (replaceBrsL c)

/-- The br replacement over a node list. -/
def replaceBrsL : List DomNode → List DomNode
  | [] => []
  | n :: ns => replaceBrsN n :: replaceBrsL ns

end

/-- The br replacement of part_003 line 81, over the body children. -/
def replaceBrs (ns : List DomNode) : List DomNode := replaceBrsL ns

/-- The `blockTags` set of part_003 line 83 (tag names are upper case in
the DOM; tags are stored lower case here). -/
def isBlockTag (t : String) : Bool :=
  t = "p" || t = "li" || t = "h1" || t = "h2" || t = "h3" || t = "h4" || t = "h5" ||
    t = "h6" || t = "ul" || t = "ol" || t = "table" || t = "section" || t = "article" ||
    t = "div"

/-- The text-node branch of `wrapLooseContent` (part_003 lines 87-102):
collapse and trim the text; if non-empty, sentence-split it, group two
sentences per chunk, and emit each non-empty chunk as a styled
paragraph; the original text node is removed in every case. -/
def looseTextPs (s : String) : List DomNode :=
  let t := jsTrim ⟨collapseChars s.data⟩
  if t = "" then []
  else
    ((chunkPairs (sentencesOf t)).filter (fun c => c ≠ "")).map
      (fun chunk => DomNode.elem "p" [("style", pStyleDom)] [DomNode.text chunk])

/-! `wrapLooseContent` (part_003 lines 84-118) on the snapshot of a
node list: text nodes become synthetic paragraphs in place, recognized
block elements are recursed into, and any other element is moved inside
a fresh styled paragraph (the paragraphs created here are not in the
snapshot and are not revisited, matching `Array.from(root.childNodes)`). -/
mutual

/-- One node under `wrapLooseContent`: a text node expands to its
synthetic paragraphs, a block element is recursed into, an inline
element is moved inside a fresh styled paragraph. -/
def wrapNodeN : DomNode → List DomNode
  | .text s => looseTextPs s
  | .elem t a c =>
    if isBlockTag t then [.elem t a (wrapNodeL c)]
    else [.elem "p" [("style", pStyleDom)] [.elem t a c]]

/-- `wrapLooseContent` over a node list. -/
def wrapNodeL : List DomNode → List DomNode
  | [] => []
  | n :: ns => wrapNodeN n ++ wrapNodeL ns

end

/-- `wrapLooseContent(doc.body)` (part_003 line 118). -/
def wrapNodes (ns : List DomNode) : List DomNode := wrapNodeL ns

/-- Void elements, serialized without closing tag and parsed without
children. -/
def voidTag (t : String) : Bool :=
  t = "br" || t = "hr" || t = "img" || t = "meta" || t = "input" || t = "link"

mutual

/-- HTML fragment serialization of one node (`doc.body.innerHTML`,
part_003 line 119): text is escaped with `domEscapeText`, attributes are
double-quoted with `domEscapeAttr`, void elements carry no closing
tag. -/
def serializeNode : DomNode → String
  | .text s => domEscapeText s
  | .elem t a c =>
    "<" ++ t ++
      String.join (a.map (fun p => " " ++ p.1 ++ "=\"" ++ domEscapeAttr p.2 ++ "\"")) ++
      ">" ++ (if voidTag t then "" else serializeNodes c ++ "</" ++ t ++ ">")

/-- Serialization of a node list. -/
def serializeNodes : List DomNode → String
  | [] => ""
  | n :: ns => serializeNode n ++ serializeNodes ns

end

/-- The whole DOM-structured path of `formatChapterContent`
(part_003 lines 49-119), applied to the parsed body children: strip
leading title-matching elements, remove title-matching h1 elements
(only when a non-empty title was supplied: the source guards both with
the truthiness of `chapterTitle`, so the empty string counts as
absent), inject the fixed styles, replace
`<br>` by newline text, wrap loose content, and serialize. -/
def domPath (nodes : List DomNode) (title : Option String) : String :=
  let cands := match title with
    | some t => if t = "" then [] else titleCandidates t
    | none => []
  let ns1 := stripLeadingElems cands nodes
  let ns2 := match title with
    | some t => if t = "" then ns1 else removeH1s cands ns1
    | none => ns1
  let ns3 := setStyleTag "ul" ulStyleDom
    (setStyleTag "p" pStyleDom (setStyleTag "h3" h3StyleDom (setStyleTag "h2" h2StyleDom ns2)))
  serializeNodes (wrapNodes (replaceBrs ns3))

/-! ### A model of `DOMParser` for well-formed fragments

`parseFromString(raw, 'text/html')` is a platform API, not repository
code.  The recursive-descent parser below models it on well-formed ASCII
fragments without comments, scripts or implicit tag closing — the only
shapes the theorems evaluate it on; tag and attribute names are
lower-cased and the five standard entity references in text are
decoded, as the HTML parser does. -/

/-- Word character of the regex class backslash-w. -/
def isWordChar (c : Char) : Bool := c.isAlpha || isDigitChar c || c = '_'

/-- Characters allowed in tag and attribute names by this model. -/
def isNameChar (c : Char) : Bool := c.isAlpha || isDigitChar c || c = '-'

/-- Drop a literal pattern (already lower case) from the head of the
input, case-insensitively; returns the remainder on success. -/
def dropLitCi : List Char → List Char → Option (List Char)
  | [], cs => some cs
  | _ :: _, [] => none
  | p :: ps, c :: cs => if c.toLower = p then dropLitCi ps cs else none

/-- Like `dropLitCi`, also returning the matched characters in their
original case (for regex captures). -/
def dropLitCiKeep : List Char → List Char → Option (List Char × List Char)
  | [], cs => some ([], cs)
  | _ :: _, [] => none
  | p :: ps, c :: cs =>
    if c.toLower = p then
      match dropLitCiKeep ps cs with
      | some pr => some (c :: pr.1, pr.2)
      | none => none
    else none

/-- Decode the five standard entity references in parsed text, as the
HTML parser does with the output of `escapeHtml`. -/
def decodeEntGo : Nat → List Char → List Char
  | 0, cs => cs
  | _, [] => []
  | fuel + 1, c :: rest =>
    if c = '&' then
      match dropLitCi "amp;".data rest with
      | some r => '&' :: decodeEntGo fuel r
      | none =>
        match dropLitCi "lt;".data rest with
        | some r => '<' :: decodeEntGo fuel r
        | none =>
          match dropLitCi "gt;".data rest with
          | some r => '>' :: decodeEntGo fuel r
          | none =>
            match dropLitCi "quot;".data rest with
            | some r => '"' :: decodeEntGo fuel r
            | none =>
              match dropLitCi "#039;".data rest with
              | some r => '\'' :: decodeEntGo fuel r
              | none => '&' :: decodeEntGo fuel rest
    else c :: decodeEntGo fuel rest

/-- Entity decoding of a text run. -/
def decodeEnt (cs : List Char) : String := ⟨decodeEntGo cs.length cs⟩

/-- Attribute-list parsing: whitespace-separated names with optional
double-quoted values, ending before a closing angle or slash. -/
def parseAttrs : Nat → List Char → List (String × String) × List Char
  | 0, cs => ([], cs)
  | fuel + 1, cs =>
    let cs1 := cs.dropWhile isJsWs
    match cs1 with
    | [] => ([], [])
    | '>' :: _ => ([], cs1)
    | '/' :: _ => ([], cs1)
    | _ =>
      let name := cs1.takeWhile isNameChar
      if name.isEmpty then ([], cs1)
      else
        let r1 := cs1.dropWhile isNameChar
        match r1 with
        | '=' :: '"' :: r2 =>
          let v := r2.takeWhile (fun c => c ≠ '"')
          let r3 := (r2.dropWhile (fun c => c ≠ '"')).drop 1
          let (rest, r4) := parseAttrs fuel r3
          ((⟨name.map Char.toLower⟩, ⟨v⟩) :: rest, r4)
        | _ =>
          let (rest, r4) := parseAttrs fuel r1
          ((⟨name.map Char.toLower⟩, "") :: rest, r4)

/-- Consume a well-formed closing tag for `tag` at the head of the
input; malformed input is left untouched (irrelevant for the well-formed
fragments the model is used on). -/
def dropClosing (tag : String) (cs : List Char) : List Char :=
  match cs with
  | '<' :: '/' :: rest =>
    (match dropLitCi tag.data rest with
     | some r =>
       (match r.dropWhile isJsWs with
        | '>' :: r2 => r2
        | _ => cs)
     | none => cs)
  | _ => cs

/-- Recursive-descent node parsing; stops before a closing tag, which
the enclosing element consumes.  `fuel` bounds recursion; it is called
with more units than there are characters, and every recursive call
either consumes input or returns at once. -/
def parseNodesGo : Nat → List Char → List DomNode × List Char
  | 0, cs => ([], cs)
  | _, [] => ([], [])
  | fuel + 1, cs =>
    match cs with
    | '<' :: '/' :: _ => ([], cs)
    | '<' :: rest =>
      let name := rest.takeWhile isNameChar
      if name.isEmpty then
        let (ns, r) := parseNodesGo fuel rest
        (DomNode.text "<" :: ns, r)
      else
        let tag : String := ⟨name.map Char.toLower⟩
        let (attrs, r2) := parseAttrs fuel (rest.dropWhile isNameChar)
        match r2 with
        | '/' :: '>' :: r3 =>
          let (ns, r4) := parseNodesGo fuel r3
          (DomNode.elem tag attrs [] :: ns, r4)
        | '>' :: r3 =>
          if voidTag tag then
            let (ns, r4) := parseNodesGo fuel r3
            (DomNode.elem tag attrs [] :: ns, r4)
          else
            let (children, r4) := parseNodesGo fuel r3
            let (ns, r6) := parseNodesGo fuel (dropClosing tag r4)
            (DomNode.elem tag attrs children :: ns, r6)
        | _ => ([DomNode.text "<"], r2)
    | _ =>
      let t := cs.takeWhile (fun d => d ≠ '<')
      let (ns, r) := parseNodesGo fuel (cs.dropWhile (fun d => d ≠ '<'))
      (DomNode.text (decodeEnt t) :: ns, r)

/-- Model of `new DOMParser().parseFromString(raw, 'text/html').body`'s
child list, for well-formed ASCII fragments. -/
def parseHtml (raw : String) : List DomNode :=
  (parseNodesGo (raw.data.length + 1) raw.data).1

/-! ### The regex-based fallback of the HTML path (part_003 lines 124-223)

Reached when `DOMParser` is unavailable or throws.  Each `replace` of
the `prepared` chain is a left-to-right global scan; the scanners below
implement the exact patterns of lines 125-140 and are applied in the
same order.  The inner `stripDup` of this path (lines 203-222) calls
`DOMParser` again: in the environment that forced the fallback it throws
and the `catch` returns the built string unchanged, so the fallback
result is the built string itself. -/

/-- A single pass of a JavaScript global `replace`: at each position try
the match at the head; on success emit the replacement and continue
after the match, otherwise copy one character.  Every step handles at
least one character, so fuel equal to the input length completes the
scan. -/
def replaceGo (step : List Char → Option (List Char × List Char)) :
    Nat → List Char → List Char
  | 0, cs => cs
  | _, [] => []
  | fuel + 1, c :: rest =>
    match step (c :: rest) with
    | some (repl, after) => repl ++ replaceGo step fuel after
    | none => c :: replaceGo step fuel rest

/-- A global `replace` on strings. -/
def jsReplace (step : List Char → Option (List Char × List Char)) (s : String) : String :=
  ⟨replaceGo step s.data.length s.data⟩

/-- `replace(/\r\n/g, '\n')` (part_003 line 125). -/
def stepCrlf : List Char → Option (List Char × List Char)
  | '\r' :: '\n' :: r => some ("\n".data, r)
  | _ => none

/-- `replace(/<\s*br\s*\/?>/gi, '\n')` (part_003 line 126). -/
def stepBr : List Char → Option (List Char × List Char)
  | '<' :: rest =>
    (match rest.dropWhile isJsWs with
     | b :: r :: r2 =>
       if (b = 'b' || b = 'B') && (r = 'r' || r = 'R') then
         match r2.dropWhile isJsWs with
         | '/' :: '>' :: r4 => some ("\n".data, r4)
         | '>' :: r4 => some ("\n".data, r4)
         | _ => none
       else none
     | _ => none)
  | _ => none

/-- An opening-tag restyling replace of part_003 lines 128-131, pattern
`<`, optional whitespace, the tag name (case-insensitive) at a word
boundary, any run of non-closing characters, `>`; the whole match is
replaced by the fixed styled opening tag. -/
def stepOpenStyled (tag : List Char) (repl : String) :
    List Char → Option (List Char × List Char)
  | '<' :: rest =>
    (match dropLitCi tag (rest.dropWhile isJsWs) with
     | some r2 =>
       (match r2 with
        | c :: _ =>
          if isWordChar c then none
          else
            (match r2.dropWhile (fun d => d ≠ '>') with
             | '>' :: r5 => some (repl.data, r5)
             | _ => none)
        | [] => none)
     | none => none)
  | _ => none

/-- `replace(/<\s*(h[1-6][^>]*)>/gi, '\n<$1>')` (part_003 line 133): a
heading opening tag is put on its own line, the capture keeping its
original spelling. -/
def stepWrapOpenH : List Char → Option (List Char × List Char)
  | '<' :: rest =>
    (match rest.dropWhile isJsWs with
     | h :: d :: r2 =>
       if (h = 'h' || h = 'H') && ('1' ≤ d && d ≤ '6') then
         match r2.dropWhile (fun c => c ≠ '>') with
         | '>' :: r5 =>
           some ('\n' :: '<' :: h :: d :: (r2.takeWhile (fun c => c ≠ '>') ++ ['>']), r5)
         | _ => none
       else none
     | _ => none)
  | _ => none

/-- `replace(/<\s*\/(h[1-6])\s*>/gi, '</$1>\n')` (part_003 line 134). -/
def stepWrapCloseH : List Char → Option (List Char × List Char)
  | '<' :: rest =>
    (match rest.dropWhile isJsWs with
     | '/' :: h :: d :: r2 =>
       if (h = 'h' || h = 'H') && ('1' ≤ d && d ≤ '6') then
         match r2.dropWhile isJsWs with
         | '>' :: r3 => some ('<' :: '/' :: h :: d :: '>' :: '\n' :: [], r3)
         | _ => none
       else none
     | _ => none)
  | _ => none

/-- The open-tag line-breaking replaces for `p`, `ul` and `li`
(part_003 lines 135, 137, 139), pattern `<\s*(TAG[^>]*)>` with no word
boundary after the tag letters. -/
def stepWrapOpen (tag : List Char) : List Char → Option (List Char × List Char)
  | '<' :: rest =>
    (match dropLitCiKeep tag (rest.dropWhile isJsWs) with
     | some (kept, r2) =>
       (match r2.dropWhile (fun c => c ≠ '>') with
        | '>' :: r5 =>
          some ('\n' :: '<' :: (kept ++ r2.takeWhile (fun c => c ≠ '>') ++ ['>']), r5)
        | _ => none)
     | none => none)
  | _ => none

/-- The close-tag line-breaking replaces for `p`, `ul` and `li`
(part_003 lines 136, 138, 140), pattern `<\s*\/(TAG)\s*>`. -/
def stepWrapClose (tag : List Char) : List Char → Option (List Char × List Char)
  | '<' :: rest =>
    (match rest.dropWhile isJsWs with
     | '/' :: r1 =>
       (match dropLitCiKeep tag r1 with
        | some (kept, r2) =>
          (match r2.dropWhile isJsWs with
           | '>' :: r3 => some ('<' :: '/' :: (kept ++ ['>', '\n']), r3)
           | _ => none)
        | none => none)
     | _ => none)
  | _ => none

/-- The `prepared` chain (part_003 lines 124-140), the twelve global
replaces applied in source order. -/
def preparedOf (raw : String) : String :=
  jsReplace (stepWrapClose "li".data)
    (jsReplace (stepWrapOpen "li".data)
      (jsReplace (stepWrapClose "ul".data)
        (jsReplace (stepWrapOpen "ul".data)
          (jsReplace (stepWrapClose "p".data)
            (jsReplace (stepWrapOpen "p".data)
              (jsReplace stepWrapCloseH
                (jsReplace stepWrapOpenH
                  (jsReplace (stepOpenStyled "ul".data ("<ul style=\"" ++ ulStyleFallback ++ "\">"))
                    (jsReplace (stepOpenStyled "p".data ("<p style=\"" ++ pStylePlain ++ "\">"))
                      (jsReplace (stepOpenStyled "h3".data ("<h3 style=\"" ++ h3StylePlain ++ "\">"))
                        (jsReplace (stepOpenStyled "h2".data ("<h2 style=\"" ++ h2StylePlain ++ "\">"))
                          (jsReplace stepBr (jsReplace stepCrlf raw)))))))))))))

/-- `prepared.split(/\n/)` (part_003 line 142): split on newlines only. -/
def splitNlChars : List Char → List (List Char)
  | [] => [[]]
  | '\n' :: rest => [] :: splitNlChars rest
  | c :: rest =>
    match splitNlChars rest with
    | [] => [[c]]
    | l :: ls => (c :: l) :: ls

/-- Newline split on strings. -/
def splitNl (s : String) : List String := (splitNlChars s.data).map (fun l => ⟨l⟩)

/-- The pass-through test `/^<\/?(h[1-6]|ul|li|p)\b/i` (part_003 line
163) after the optional slash: tag letters at a word boundary. -/
def tagBoundary : List Char → Bool
  | c1 :: c2 :: rest2 =>
    if (c1 = 'h' || c1 = 'H') && ('1' ≤ c2 && c2 ≤ '6') then boundaryOk rest2
    else if (c1 = 'u' || c1 = 'U') && (c2 = 'l' || c2 = 'L') then boundaryOk rest2
    else if (c1 = 'l' || c1 = 'L') && (c2 = 'i' || c2 = 'I') then boundaryOk rest2
    else if c1 = 'p' || c1 = 'P' then boundaryOk (c2 :: rest2)
    else false
  | [c1] => c1 = 'p' || c1 = 'P'
  | [] => false
where
  /-- A word boundary: end of input or a non-word character. -/
  boundaryOk : List Char → Bool
    | [] => true
    | c :: _ => !isWordChar c

/-- `/^<\/?(h[1-6]|ul|li|p)\b/i.test(trimmed)` (part_003 line 163). -/
def isPassThroughTag (s : String) : Bool :=
  match s.data with
  | '<' :: '/' :: rest => tagBoundary rest
  | '<' :: rest => tagBoundary rest
  | _ => false

/-- `/^<h[1-6]\b/i.test(trimmed)` (part_003 line 165). -/
def isHeadOpenLine (s : String) : Bool :=
  match s.data with
  | '<' :: h :: d :: rest =>
    (h = 'h' || h = 'H') && ('1' ≤ d && d ≤ '6') && tagBoundary.boundaryOk rest
  | _ => false

/-- `/^<\/h[1-6]>/i.test(trimmed)` (part_003 line 165). -/
def isHeadCloseLine (s : String) : Bool :=
  match s.data with
  | '<' :: '/' :: h :: d :: '>' :: _ =>
    (h = 'h' || h = 'H') && ('1' ≤ d && d ≤ '6')
  | _ => false

/-- The sentence-split paragraph emission of the fallback loop
(part_003 lines 185-196): a single sentence (or no match) emits the
whole trimmed line as one styled paragraph; otherwise the sentences are
grouped two per paragraph and each non-empty chunk is emitted escaped. -/
def sentencePs (trimmed : String) : List String :=
  let ss := sentencesOf trimmed
  if ss.length ≤ 1 then
    ["<p style=\"" ++ pStylePlain ++ "\">" ++ escapeHtml trimmed ++ "</p>"]
  else
    ((chunkPairs ss).filter (fun c => c ≠ "")).map
      (fun c => "<p style=\"" ++ pStylePlain ++ "\">" ++ escapeHtml c ++ "</p>")

/-- The line loop of the fallback path (part_003 lines 154-199),
carrying the `inList` flag; `closeList` pushes of `</ul>` are emitted in
place. -/
def fallbackLoop (inList : Bool) : List String → List String
  | [] => if inList then ["</ul>"] else []
  | l :: ls =>
    let trimmed := jsTrim l
    if trimmed = "" then
      (if inList then ["</ul>"] else []) ++ fallbackLoop false ls
    else if isPassThroughTag trimmed then
      if isHeadOpenLine trimmed || isHeadCloseLine trimmed then
        (if inList then ["</ul>"] else []) ++ (trimmed :: fallbackLoop false ls)
      else trimmed :: fallbackLoop inList ls
    else
      match bulletContent trimmed with
      | some item =>
        (if inList then [] else ["<ul style=\"" ++ ulStyleFallback ++ "\">"]) ++
          (("<li>" ++ escapeHtml (jsTrim item) ++ "</li>") :: fallbackLoop true ls)
      | none =>
        (if inList then ["</ul>"] else []) ++ (sentencePs trimmed ++ fallbackLoop false ls)

/-- `out.join('\n')` of the fallback path (part_003 line 202), which in
the fallback environment is also its final result: the `stripDup` of
lines 203-222 constructs another `DOMParser`, which throws there, and
its `catch` returns the string unchanged. -/
def fallbackBuilt (raw : String) : String :=
  joinSep "\n" (fallbackLoop false (splitNl (preparedOf raw)))

/-- The complete `formatChapterContent(raw, chapterTitle)` of part_003
lines 33-318.  `domOk` models the environment: whether `DOMParser`
construction and parsing succeed (they do in a browser; when they throw,
every `try` around a `DOMParser` use in the function falls to its
`catch`).  An absent title is `none`, matching the optional
`chapterTitle?` parameter. -/
def formatChapterContent (domOk : Bool) (raw : String) (title : Option String) : String :=
  if raw = "" then ""
  else if hasHtmlHeadings raw then
    if domOk then domPath (parseHtml raw) title else fallbackBuilt raw
  else plainPath domOk raw title

/-! ### Counting helpers used by the theorems -/

/-- Whether a block is a primary heading. -/
def isH2Block : HBlock → Bool
  | .h2 _ => true
  | _ => false

/-- Number of primary-heading blocks in an emission. -/
def countH2Blocks (bs : List HBlock) : Nat := (bs.filter isH2Block).length

/-- How many input lines a block wraps: one for a heading or paragraph,
one per item for a bullet list. -/
def blockLineCount : HBlock → Nat
  | .h2 _ => 1
  | .h3 _ => 1
  | .par _ => 1
  | .ulist items => items.length

/-- Total number of wrapped lines over an emission. -/
def blocksLineCount (bs : List HBlock) : Nat := (bs.map blockLineCount).sum

/-- Number of non-blank lines of a line list. -/
def nonBlankCount (ls : List String) : Nat := (ls.filter (fun l => jsTrim l != "")).length

/-- Number of elements the duplicate-title loop removes from the front
of the built block list. -/
def strippedCount (cands : List String) (bs : List HBlock) : Nat :=
  bs.length - (stripDupBlocks cands bs).length

/-! ### Helper lemmas -/

/-- `countH2Blocks` distributes over append. -/
theorem countH2Blocks_append (a b : List HBlock) :
    countH2Blocks (a ++ b) = countH2Blocks a + countH2Blocks b := by
  simp [countH2Blocks, List.filter_append]

/-- A flushed bullet list contains no primary heading. -/
theorem countH2Blocks_flush (cur : Option (List String)) :
    countH2Blocks (flushList cur) = 0 := by
  cases cur <;> simp [flushList, countH2Blocks, isH2Block]


/-- Branch equation of the loop: a blank line closes an open list and
is skipped. -/
theorem formatLines_blank (fhd : Bool) (cur : Option (List String)) (l : String)
    (ls : List String) (h : jsTrim l = "") :
    formatLines fhd cur (l :: ls) = flushList cur ++ formatLines fhd none ls := by
  simp [formatLines, h]

/-- Branch equation of the loop: before any heading, a non-blank line
becomes the primary heading and sets the flag. -/
theorem formatLines_h2 (cur : Option (List String)) (l : String) (ls : List String)
    (h : jsTrim l ≠ "") :
    formatLines false cur (l :: ls) = HBlock.h2 (jsTrim l) :: formatLines true cur ls := by
  simp [formatLines, h]

/-- Branch equation of the loop: a dotted numeric line becomes a
subheading. -/
theorem formatLines_dotted (cur : Option (List String)) (l : String) (ls : List String)
    (h1 : jsTrim l ≠ "") (h2 : isDottedHeading (jsTrim l) = true) :
    formatLines true cur (l :: ls) =
      flushList cur ++ (HBlock.h3 (jsTrim l) :: formatLines true none ls) := by
  simp [formatLines, h1, h2]

/-- Branch equation of the loop: a bullet line appends its trimmed
capture to the open list, opening one if needed. -/
theorem formatLines_bullet (cur : Option (List String)) (l : String) (ls : List String)
    (item : String) (h1 : jsTrim l ≠ "") (h2 : isDottedHeading (jsTrim l) = false)
    (h3 : bulletContent (jsTrim l) = some item) :
    formatLines true cur (l :: ls) =
      formatLines true (some ((cur.getD []) ++ [jsTrim item])) ls := by
  simp [formatLines, h1, h2, h3]

/-- Branch equation of the loop: a short capitalized line becomes a
subheading by the heuristic. -/
theorem formatLines_subhead (cur : Option (List String)) (l : String) (ls : List String)
    (h1 : jsTrim l ≠ "") (h2 : isDottedHeading (jsTrim l) = false)
    (h3 : bulletContent (jsTrim l) = none) (h4 : isSubheading (jsTrim l) = true) :
    formatLines true cur (l :: ls) =
      flushList cur ++ (HBlock.h3 (jsTrim l) :: formatLines true none ls) := by
  simp [formatLines, h1, h2, h3, h4]

/-- Branch equation of the loop: any other line becomes a single
paragraph block holding the whole trimmed line. -/
theorem formatLines_par (cur : Option (List String)) (l : String) (ls : List String)
    (h1 : jsTrim l ≠ "") (h2 : isDottedHeading (jsTrim l) = false)
    (h3 : bulletContent (jsTrim l) = none) (h4 : isSubheading (jsTrim l) = false) :
    formatLines true cur (l :: ls) =
      flushList cur ++ (HBlock.par (jsTrim l) :: formatLines true none ls) := by
  simp [formatLines, h1, h2, h3, h4]

/-- Once the first-heading flag is set, the loop never emits another
primary heading: the `<h2>` branch is the only one producing an `h2`
block and it is guarded by the flag. -/
theorem formatLines_true_no_h2 : ∀ (ls : List String) (cur : Option (List String)),
    countH2Blocks (formatLines true cur ls) = 0
  | [], cur => countH2Blocks_flush cur
  | l :: ls, cur => by
    by_cases h1 : jsTrim l = ""
    · rw [formatLines_blank true cur l ls h1, countH2Blocks_append,
        countH2Blocks_flush, formatLines_true_no_h2 ls none]
    · by_cases h2 : isDottedHeading (jsTrim l)
      · rw [formatLines_dotted cur l ls h1 h2, countH2Blocks_append, countH2Blocks_flush]
        have : countH2Blocks (HBlock.h3 (jsTrim l) :: formatLines true none ls) =
            countH2Blocks (formatLines true none ls) := by
          simp [countH2Blocks, isH2Block]
        rw [this, formatLines_true_no_h2 ls none]
      · cases hb : bulletContent (jsTrim l) with
        | some item =>
          rw [formatLines_bullet cur l ls item h1 (by simp [h2]) hb]
          exact formatLines_true_no_h2 ls (some ((cur.getD []) ++ [jsTrim item]))
        | none =>
          by_cases h4 : isSubheading (jsTrim l)
          · rw [formatLines_subhead cur l ls h1 (by simp [h2]) hb h4,
              countH2Blocks_append, countH2Blocks_flush]
            have : countH2Blocks (HBlock.h3 (jsTrim l) :: formatLines true none ls) =
                countH2Blocks (formatLines true none ls) := by
              simp [countH2Blocks, isH2Block]
            rw [this, formatLines_true_no_h2 ls none]
          · rw [formatLines_par cur l ls h1 (by simp [h2]) hb (by simp [h4]),
              countH2Blocks_append, countH2Blocks_flush]
            have : countH2Blocks (HBlock.par (jsTrim l) :: formatLines true none ls) =
                countH2Blocks (formatLines true none ls) := by
              simp [countH2Blocks, isH2Block]
            rw [this, formatLines_true_no_h2 ls none]

/-- C1: In the plain-text path, the first non-blank line of the document
always becomes the single primary heading block — its content is not
inspected against the bullet or dotted-numeric patterns — the loop
continues on the remaining lines with the flag consumed, and no later
rule can emit another primary heading: the whole emission contains
exactly one `h2` block. -/
theorem claim1_first_nonblank_line_is_single_h2 (pre : List String) (l : String)
    (rest : List String) (hpre : ∀ x ∈ pre, jsTrim x = "") (hl : jsTrim l ≠ "") :
    formatLines false none (pre ++ l :: rest) =
      HBlock.h2 (jsTrim l) :: formatLines true none rest ∧
    countH2Blocks (formatLines false none (pre ++ l :: rest)) = 1 := by
  induction pre with
  | nil =>
    constructor
    · simpa using formatLines_h2 none l rest hl
    · rw [List.nil_append, formatLines_h2 none l rest hl]
      have h0 := formatLines_true_no_h2 rest none
      simp [countH2Blocks, isH2Block] at h0 ⊢
      exact h0
  | cons x pre ih =>
    have hx : jsTrim x = "" := hpre x (List.mem_cons_self x pre)
    have hrest : ∀ y ∈ pre, jsTrim y = "" := fun y hy => hpre y (List.mem_cons_of_mem x hy)
    have heq : formatLines false none ((x :: pre) ++ l :: rest) =
        formatLines false none (pre ++ l :: rest) := by
      rw [List.cons_append, formatLines_blank false none x (pre ++ l :: rest) hx]
      simp [flushList]
    rw [heq]
    exact ih hrest

/-- Witness for C1 at the spec's own example: the first line is a bullet
line, and it still becomes the primary heading; only the second bullet
line becomes a list item. -/
theorem claim1_witness :
    (∀ x ∈ ([] : List String), jsTrim x = "") ∧ jsTrim "- item one" ≠ "" ∧
    (formatLines false none ["- item one", "- item two"] =
        HBlock.h2 "- item one" :: formatLines true none ["- item two"] ∧
      countH2Blocks (formatLines false none ["- item one", "- item two"]) = 1) ∧
    formatLines false none ["- item one", "- item two"] =
      [HBlock.h2 "- item one", HBlock.ulist ["item two"]] := by
  refine ⟨by simp, by decide, ?_, by rfl⟩
  have := claim1_first_nonblank_line_is_single_h2 [] "- item one" ["- item two"]
    (by simp) (by decide)
  simpa using this

/-- C2 counterexample: with input consisting of the title line twice and
a body line, the plain-text path emits a primary heading and a
subheading both carrying the title text, and the duplicate-title pass
removes BOTH leading elements — two removals, not at most one — so only
the body paragraph survives (behind the two separator newlines the
removed elements leave in the body). -/
theorem claim2_counterexample :
    strippedCount (titleCandidates "Foo")
        (formatLines false none (splitLines (stripBold (jsTrim "Foo\nFoo\nbody.")))) = 2 ∧
    formatChapterContent true "Foo\nFoo\nbody." (some "Foo") =
      "\n\n<p style=\"margin: 8px 0; line-height: 1.7;\">body.</p>" := by
  exact ⟨by rfl, by rfl⟩

/-- C2 as amended: the duplicate-title pass performs zero or more
removals, always of the then-first element of the built output, removing
leading elements exactly as long as their normalized text content is in
the title-candidate set and stopping at the first non-matching
element. -/
theorem claim2_amended_strip_drops_matching_leading_elements
    (cands : List String) :
    ∀ bs : List HBlock, stripDupBlocks cands bs = bs.dropWhile (blockMatchesTitle cands)
  | [] => rfl
  | b :: bs => by
    by_cases h : blockMatchesTitle cands b
    · rw [stripDupBlocks, if_pos h, List.dropWhile_cons_of_pos h]
      exact claim2_amended_strip_drops_matching_leading_elements cands bs
    · rw [stripDupBlocks, if_neg h, List.dropWhile_cons_of_neg (by simpa using h)]

set_option maxRecDepth 8000 in
/-- C3 counterexample: a plain-text body line containing three sentences
is NOT sentence-split: the loop emits a single paragraph block holding
the whole trimmed line (the claimed two-sentences-per-paragraph grouping
would have produced two paragraphs); the sentence regex itself finds
three sentences in the line.  Sentence splitting exists only in the DOM
and regex-fallback branches of the HTML path. -/
theorem claim3_counterexample :
    formatLines false none ["Head", "One one. Two two. Three three."] =
      [HBlock.h2 "Head", HBlock.par "One one. Two two. Three three."] ∧
    (sentMatches "One one. Two two. Three three.").length = 3 ∧
    plainPath true "Head\nOne one. Two two. Three three." none =
      "<h2 style=\"" ++ h2StylePlain ++ "\">Head</h2>\n<p style=\"" ++ pStylePlain ++
        "\">One one. Two two. Three three.</p>" := by
  exact ⟨by rfl, by rfl, by rfl⟩

/-- C3 as amended: a non-blank line that is not the first non-blank
line, not a dotted-numeric heading, not a bullet, and not caught by the
subheading heuristic is emitted as exactly ONE HTML-escaped styled
paragraph element holding the entire trimmed line; no sentence
splitting happens in the plain-text path. -/
theorem claim3_amended_else_line_is_one_paragraph (cur : Option (List String))
    (l : String) (ls : List String) (h1 : jsTrim l ≠ "")
    (h2 : isDottedHeading (jsTrim l) = false) (h3 : bulletContent (jsTrim l) = none)
    (h4 : isSubheading (jsTrim l) = false) :
    formatLines true cur (l :: ls) =
      flushList cur ++ (HBlock.par (jsTrim l) :: formatLines true none ls) ∧
    serializeBlockSrc (HBlock.par (jsTrim l)) =
      "<p style=\"" ++ pStylePlain ++ "\">" ++ escapeHtml (jsTrim l) ++ "</p>" := by
  exact ⟨formatLines_par cur l ls h1 h2 h3 h4, rfl⟩

/-- Witness for C3's amended statement on a three-sentence body line. -/
theorem claim3_witness :
    jsTrim "One one. Two two. Three three." ≠ "" ∧
    isDottedHeading (jsTrim "One one. Two two. Three three.") = false ∧
    bulletContent (jsTrim "One one. Two two. Three three.") = none ∧
    isSubheading (jsTrim "One one. Two two. Three three.") = false ∧
    (formatLines true none ["One one. Two two. Three three."] =
        flushList none ++
          (HBlock.par (jsTrim "One one. Two two. Three three.") :: formatLines true none []) ∧
      serializeBlockSrc (HBlock.par (jsTrim "One one. Two two. Three three.")) =
        "<p style=\"" ++ pStylePlain ++ "\">" ++
          escapeHtml (jsTrim "One one. Two two. Three three.") ++ "</p>") := by
  refine ⟨by decide, by rfl, by rfl, by rfl, ?_⟩
  exact claim3_amended_else_line_is_one_paragraph none "One one. Two two. Three three." []
    (by decide) (by rfl) (by rfl) (by rfl)

/-- `blocksLineCount` distributes over append. -/
theorem blocksLineCount_append (a b : List HBlock) :
    blocksLineCount (a ++ b) = blocksLineCount a + blocksLineCount b := by
  simp [blocksLineCount]

/-- A flushed list wraps exactly its buffered items. -/
theorem blocksLineCount_flush (cur : Option (List String)) :
    blocksLineCount (flushList cur) = (cur.getD []).length := by
  cases cur <;> simp [flushList, blocksLineCount, blockLineCount]

/-- A blank line does not change the non-blank count. -/
theorem nonBlankCount_cons_blank {l : String} (ls : List String) (h : jsTrim l = "") :
    nonBlankCount (l :: ls) = nonBlankCount ls := by
  simp [nonBlankCount, List.filter_cons, h]

/-- A non-blank line adds one to the non-blank count. -/
theorem nonBlankCount_cons_nonblank {l : String} (ls : List String) (h : jsTrim l ≠ "") :
    nonBlankCount (l :: ls) = nonBlankCount ls + 1 := by
  simp [nonBlankCount, List.filter_cons, h]

/-- Every non-blank line of the plain-text loop is wrapped into exactly
one line slot of one block — one heading, one paragraph, or one list
item — and blank lines are dropped: the wrapped-line count of the
emission equals the buffered items plus the non-blank input lines. -/
theorem formatLines_lineCount : ∀ (ls : List String) (fhd : Bool) (cur : Option (List String)),
    blocksLineCount (formatLines fhd cur ls) = (cur.getD []).length + nonBlankCount ls
  | [], fhd, cur => by
    simp [formatLines, blocksLineCount_flush, nonBlankCount]
  | l :: ls, fhd, cur => by
    by_cases h1 : jsTrim l = ""
    · rw [formatLines_blank fhd cur l ls h1, blocksLineCount_append, blocksLineCount_flush,
        formatLines_lineCount ls fhd none, nonBlankCount_cons_blank ls h1]
      simp
    · cases fhd with
      | false =>
        rw [formatLines_h2 cur l ls h1]
        have : blocksLineCount (HBlock.h2 (jsTrim l) :: formatLines true cur ls) =
            1 + blocksLineCount (formatLines true cur ls) := by
          simp [blocksLineCount, blockLineCount]
        rw [this, formatLines_lineCount ls true cur, nonBlankCount_cons_nonblank ls h1]
        omega
      | true =>
        by_cases h2 : isDottedHeading (jsTrim l)
        · rw [formatLines_dotted cur l ls h1 h2, blocksLineCount_append, blocksLineCount_flush]
          have : blocksLineCount (HBlock.h3 (jsTrim l) :: formatLines true none ls) =
              1 + blocksLineCount (formatLines true none ls) := by
            simp [blocksLineCount, blockLineCount]
          rw [this, formatLines_lineCount ls true none, nonBlankCount_cons_nonblank ls h1]
          simp
          omega
        · cases hb : bulletContent (jsTrim l) with
          | some item =>
            rw [formatLines_bullet cur l ls item h1 (by simp [h2]) hb,
              formatLines_lineCount ls true (some ((cur.getD []) ++ [jsTrim item])),
              nonBlankCount_cons_nonblank ls h1]
            simp
            omega
          | none =>
            by_cases h4 : isSubheading (jsTrim l)
            · rw [formatLines_subhead cur l ls h1 (by simp [h2]) hb h4,
                blocksLineCount_append, blocksLineCount_flush]
              have : blocksLineCount (HBlock.h3 (jsTrim l) :: formatLines true none ls) =
                  1 + blocksLineCount (formatLines true none ls) := by
                simp [blocksLineCount, blockLineCount]
              rw [this, formatLines_lineCount ls true none, nonBlankCount_cons_nonblank ls h1]
              simp
              omega
            · rw [formatLines_par cur l ls h1 (by simp [h2]) hb (by simp [h4]),
                blocksLineCount_append, blocksLineCount_flush]
              have : blocksLineCount (HBlock.par (jsTrim l) :: formatLines true none ls) =
                  1 + blocksLineCount (formatLines true none ls) := by
                simp [blocksLineCount, blockLineCount]
              rw [this, formatLines_lineCount ls true none, nonBlankCount_cons_nonblank ls h1]
              simp
              omega

/-- C4 as amended: in the plain-text path every non-blank input line is
wrapped into exactly one block slot (heading, paragraph, or list item)
and its text is HTML-escaped at serialization; the DOM and
regex-fallback paths keep the no-loose-text guarantee but may split one
line of plain text into several paragraph elements, so "exactly one
block element" holds only for the plain-text path. -/
theorem claim4_amended_plain_path_wraps_each_line (ls : List String) :
    blocksLineCount (formatLines false none ls) = nonBlankCount ls := by
  simpa using formatLines_lineCount ls false none

set_option maxRecDepth 8000 in
/-- C4 counterexample: on the DOM path, the single plain-text line
containing three sentences outside any tag is wrapped into TWO paragraph
elements (grouped two sentences then one), and the heading text is even
re-wrapped into a nested paragraph inside the heading — so it is not the
case that every line of input plain text is wrapped into exactly one
block element. -/
theorem claim4_counterexample :
    formatChapterContent true "<h2>T</h2>One. Two. Three." none =
      "<h2 style=\"" ++ h2StyleDom ++ "\"><p style=\"" ++ pStyleDom ++
        "\">T</p></h2><p style=\"" ++ pStyleDom ++ "\">One.  Two.</p><p style=\"" ++
        pStyleDom ++ "\">Three.</p>" := by
  rfl

/-- C5: the transform is a total function of its inputs (every branch of
the embedding is a total Lean function, so no exception escapes for any
string input); an empty `raw` returns the empty string at once; and in
an environment where DOM parsing is unavailable or throws, the
heading-bearing inputs get the regex-fallback result instead of a
propagated error, while plain-text inputs are processed normally. -/
theorem claim5_total_empty_and_fallback :
    (∀ (domOk : Bool) (title : Option String), formatChapterContent domOk "" title = "") ∧
    (∀ (raw : String) (title : Option String),
      formatChapterContent false raw title =
        if hasHtmlHeadings raw then fallbackBuilt raw else plainPath false raw title) := by
  constructor
  · intro domOk title
    rfl
  · intro raw title
    by_cases h : raw = ""
    · subst h
      rw [show hasHtmlHeadings "" = false from rfl]
      simp only [Bool.false_eq_true, if_false]
      show "" = plainPath false "" title
      cases title <;> rfl
    · simp [formatChapterContent, h]

/-- C6: on the DOM path, when the first element child of the parsed body
— behind any leading text nodes — has normalized text content equal to a
title candidate (the title itself or the title minus its Chapter-number
label), that element is removed: the output is that of the same fragment
without it. -/
theorem claim6_leading_title_matching_element_removed (t : String) (ht : t ≠ "")
    (pre post : List DomNode) (tag : String) (attrs : List (String × String))
    (children : List DomNode) (hpre : ∀ n ∈ pre, ∃ s, n = DomNode.text s)
    (hmatch : (titleCandidates t).contains (normText (textContentL children)) = true) :
    domPath (pre ++ DomNode.elem tag attrs children :: post) (some t) =
      domPath (pre ++ post) (some t) := by
  have hstrip : stripLeadingElems (titleCandidates t)
      (pre ++ DomNode.elem tag attrs children :: post) =
      stripLeadingElems (titleCandidates t) (pre ++ post) := by
    revert hpre
    induction pre with
    | nil =>
      intro _
      rw [List.nil_append, List.nil_append]
      simp only [stripLeadingElems]
      rw [if_pos hmatch]
    | cons n pre ih =>
      intro hpre
      obtain ⟨s, rfl⟩ := hpre n (List.mem_cons_self n pre)
      simp only [List.cons_append, stripLeadingElems]
      exact congrArg (DomNode.text s :: ·)
        (ih (fun m hm => hpre m (List.mem_cons_of_mem _ hm)))
  simp only [domPath, if_neg ht]
  rw [hstrip]

set_option maxRecDepth 8000 in
/-- Witness for C6 at the spec's concrete example: the leading heading
matching the title is removed and only the body paragraph remains in the
output (re-styled, its text re-wrapped by the loose-content pass). -/
theorem claim6_witness :
    (titleCandidates "Chapter 1: Foo").contains
        (normText (textContentL [DomNode.text "Chapter 1: Foo"])) = true ∧
    parseHtml "<h2>Chapter 1: Foo</h2><p>body</p>" =
      [DomNode.elem "h2" [] [DomNode.text "Chapter 1: Foo"],
        DomNode.elem "p" [] [DomNode.text "body"]] ∧
    domPath [DomNode.elem "h2" [] [DomNode.text "Chapter 1: Foo"],
        DomNode.elem "p" [] [DomNode.text "body"]] (some "Chapter 1: Foo") =
      domPath [DomNode.elem "p" [] [DomNode.text "body"]] (some "Chapter 1: Foo") ∧
    formatChapterContent true "<h2>Chapter 1: Foo</h2><p>body</p>" (some "Chapter 1: Foo") =
      "<p style=\"margin:8px 0;line-height:1.7;\"><p style=\"margin:8px 0;line-height:1.7;\">body</p></p>" := by
  refine ⟨by rfl, by rfl, ?_, by rfl⟩
  exact claim6_leading_title_matching_element_removed "Chapter 1: Foo" (by decide) []
    [DomNode.elem "p" [] [DomNode.text "body"]] "h2" [] [DomNode.text "Chapter 1: Foo"]
    (by intro n hn; cases hn) (by rfl)

/-- The shape of one opening-heading-tag occurrence, stated from the
claim's words: a less-than sign, the letter h in either case, a digit
one through six, then whitespace or the closing angle. -/
def headTagShape (h d c : Char) : Prop :=
  (h = 'h' ∨ h = 'H') ∧ ('1' ≤ d ∧ d ≤ '6') ∧ (isJsWs c = true ∨ c = '>')

/-- The claim's characterization of mode selection: the raw input
contains an opening heading tag h1 through h6 (case-insensitive,
opening-tag form) somewhere. -/
def containsOpeningHeadingTag (raw : String) : Prop :=
  ∃ pre h d c suf, raw.data = pre ++ '<' :: h :: d :: c :: suf ∧ headTagShape h d c

/-- The one-position sniff agrees with the shape predicate. -/
theorem headTagAt_iff (cs : List Char) :
    headTagAt cs = true ↔ ∃ h d c suf, cs = '<' :: h :: d :: c :: suf ∧ headTagShape h d c := by
  constructor
  · intro hh
    match cs, hh with
    | a :: h :: d :: c :: suf, hh =>
      simp only [headTagAt, Bool.and_eq_true, Bool.or_eq_true, decide_eq_true_eq] at hh
      obtain ⟨⟨⟨ha, hhd⟩, hd⟩, hc⟩ := hh
      subst ha
      exact ⟨h, d, c, suf, rfl, hhd, hd, hc⟩
  · rintro ⟨h, d, c, suf, rfl, hsh⟩
    simp only [headTagAt, Bool.and_eq_true, Bool.or_eq_true, decide_eq_true_eq]
    exact ⟨⟨⟨trivial, hsh.1⟩, hsh.2.1⟩, hsh.2.2⟩

/-- The whole-input scan agrees with the existential shape predicate. -/
theorem hasHeadScan_iff : ∀ cs : List Char,
    hasHeadScan cs = true ↔
      ∃ pre h d c suf, cs = pre ++ '<' :: h :: d :: c :: suf ∧ headTagShape h d c
  | [] => by
    simp only [hasHeadScan, Bool.false_eq_true, false_iff]
    rintro ⟨pre, h, d, c, suf, heq, -⟩
    exact absurd heq (by simp)
  | x :: cs => by
    rw [hasHeadScan, Bool.or_eq_true, headTagAt_iff, hasHeadScan_iff cs]
    constructor
    · rintro (⟨h, d, c, suf, heq, hsh⟩ | ⟨pre, h, d, c, suf, heq, hsh⟩)
      · exact ⟨[], h, d, c, suf, by simpa using heq, hsh⟩
      · exact ⟨x :: pre, h, d, c, suf, by simp [heq], hsh⟩
    · rintro ⟨pre, h, d, c, suf, heq, hsh⟩
      cases pre with
      | nil => exact Or.inl ⟨h, d, c, suf, by simpa using heq, hsh⟩
      | cons y pre =>
        have heq' : x = y ∧ cs = pre ++ '<' :: h :: d :: c :: suf := by
          simpa using heq
        exact Or.inr ⟨pre, h, d, c, suf, heq'.2, hsh⟩

/-- C7: `formatChapterContent` takes the HTML-structured branch exactly
when the raw input contains an opening heading tag h1 through h6
(case-insensitive), and the whole function is that two-way branch: DOM
normalization (or its regex fallback) on one side, the plain-text loop
on the other, with no third mode. -/
theorem claim7_mode_selection (raw : String) (domOk : Bool) (title : Option String) :
    (hasHtmlHeadings raw = true ↔ containsOpeningHeadingTag raw) ∧
    formatChapterContent domOk raw title =
      (if hasHtmlHeadings raw then
        (if domOk then domPath (parseHtml raw) title else fallbackBuilt raw)
       else plainPath domOk raw title) := by
  constructor
  · exact hasHeadScan_iff raw.data
  · by_cases h : raw = ""
    · subst h
      rw [show hasHtmlHeadings "" = false from rfl]
      simp only [Bool.false_eq_true, if_false]
      show "" = plainPath domOk "" title
      cases title with
      | none => cases domOk <;> rfl
      | some t =>
        cases domOk with
        | false => rfl
        | true =>
          show "" = (if t = "" then builtOf [] else _)
          by_cases ht : t = ""
          · rw [if_pos ht]
            rfl
          · rw [if_neg ht]
            rfl
    · simp [formatChapterContent, h]

set_option maxRecDepth 8000 in
/-- C8 counterexample: in the plain-text path, the bullet list is opened
as a bare unstyled `<ul>` and its items are bare `<li>` elements — two
block elements normalize itself creates that carry no inline style
attribute — so not every created block element carries fixed inline
presentation attributes. -/
theorem claim8_counterexample :
    formatChapterContent true "Head\n- item one\n- item two" none =
      "<h2 style=\"" ++ h2StylePlain ++
        "\">Head</h2>\n<ul>\n<li>item one</li>\n<li>item two</li>\n</ul>" := by
  rfl

/-- C8 as amended: every heading and paragraph block the plain-text path
creates is serialized with its fixed style attribute, bullet lists and
items there carry none; and the paragraphs synthesized by the DOM path's
loose-content wrap all carry the fixed paragraph style. -/
theorem claim8_amended_styles :
    (∀ s : String, serializeBlockSrc (HBlock.h2 s) =
      "<h2 style=\"" ++ h2StylePlain ++ "\">" ++ escapeHtml s ++ "</h2>") ∧
    (∀ s : String, serializeBlockSrc (HBlock.h3 s) =
      "<h3 style=\"" ++ h3StylePlain ++ "\">" ++ escapeHtml s ++ "</h3>") ∧
    (∀ s : String, serializeBlockSrc (HBlock.par s) =
      "<p style=\"" ++ pStylePlain ++ "\">" ++ escapeHtml s ++ "</p>") ∧
    (∀ items : List String, serializeBlockSrc (HBlock.ulist items) =
      joinSep "\n"
        (["<ul>"] ++ items.map (fun i => "<li>" ++ escapeHtml i ++ "</li>") ++ ["</ul>"])) ∧
    (∀ (s : String) (n : DomNode), n ∈ looseTextPs s →
      ∃ chunk, n = DomNode.elem "p" [("style", pStyleDom)] [DomNode.text chunk]) := by
  refine ⟨fun s => rfl, fun s => rfl, fun s => rfl, fun items => rfl, ?_⟩
  intro s n hn
  by_cases ht : jsTrim ⟨collapseChars s.data⟩ = ""
  · simp [looseTextPs, ht] at hn
  · simp only [looseTextPs, ht, if_neg] at hn
    obtain ⟨chunk, -, rfl⟩ := List.mem_map.mp hn
    exact ⟨chunk, rfl⟩

/-- Witness for C8's amended statement: a styled primary heading, and a
membership instance of the loose-content paragraph clause. -/
theorem claim8_witness :
    serializeBlockSrc (HBlock.h2 "Head") =
      "<h2 style=\"" ++ h2StylePlain ++ "\">Head</h2>" ∧
    DomNode.elem "p" [("style", pStyleDom)] [DomNode.text "Hello."] ∈ looseTextPs "Hello." ∧
    (∃ chunk, DomNode.elem "p" [("style", pStyleDom)] [DomNode.text "Hello."] =
      DomNode.elem "p" [("style", pStyleDom)] [DomNode.text chunk]) := by
  have hmem : DomNode.elem "p" [("style", pStyleDom)] [DomNode.text "Hello."] ∈
      looseTextPs "Hello." := by
    rw [show looseTextPs "Hello." =
      [DomNode.elem "p" [("style", pStyleDom)] [DomNode.text "Hello."]] from rfl]
    exact List.mem_singleton_self _
  refine ⟨?_, hmem, claim8_amended_styles.2.2.2.2 "Hello." _ hmem⟩
  have := claim8_amended_styles.1 "Head"
  simpa using this

/-- C9: the transform is deterministic — it is a pure function of the
raw content, the title, and the (fixed) environment, so two invocations
on equal inputs return identical strings. -/
theorem claim9_deterministic (domOk : Bool) (raw₁ raw₂ : String)
    (title₁ title₂ : Option String) (hraw : raw₁ = raw₂) (htitle : title₁ = title₂) :
    formatChapterContent domOk raw₁ title₁ = formatChapterContent domOk raw₂ title₂ := by
  rw [hraw, htitle]

/-- Witness for C9 at a concrete input. -/
theorem claim9_witness :
    "My Chapter\nSome text here." = "My Chapter\nSome text here." ∧
    (some "My Chapter" : Option String) = some "My Chapter" ∧
    formatChapterContent true "My Chapter\nSome text here." (some "My Chapter") =
      formatChapterContent true "My Chapter\nSome text here." (some "My Chapter") := by
  exact ⟨rfl, rfl, claim9_deterministic true _ _ _ _ rfl rfl⟩

/-- Dropping over a predicate satisfied everywhere empties the list. -/
theorem dropWhile_all {α : Type} (p : α → Bool) :
    ∀ cs : List α, (∀ c ∈ cs, p c = true) → cs.dropWhile p = []
  | [], _ => rfl
  | c :: cs, h => by
    rw [List.dropWhile_cons_of_pos (h c (List.mem_cons_self c cs))]
    exact dropWhile_all p cs (fun d hd => h d (List.mem_cons_of_mem c hd))

/-- A whitespace character cannot open a heading tag. -/
theorem headTagAt_false_of_ws {a : Char} (rest : List Char) (ha : isJsWs a = true) :
    headTagAt (a :: rest) = false := by
  have hne : a ≠ '<' := by
    intro h
    subst h
    simp [isJsWs] at ha
  match rest with
  | [] => rfl
  | [b] => rfl
  | [b, x] => rfl
  | b :: x :: y :: r => simp [headTagAt, hne]

/-- A string of whitespace contains no heading tag. -/
theorem hasHeadScan_false_of_ws : ∀ cs : List Char,
    (∀ c ∈ cs, isJsWs c = true) → hasHeadScan cs = false
  | [], _ => rfl
  | c :: cs, h => by
    rw [hasHeadScan, headTagAt_false_of_ws cs (h c (List.mem_cons_self c cs)),
      hasHeadScan_false_of_ws cs (fun d hd => h d (List.mem_cons_of_mem c hd))]
    rfl

/-- C10: a non-empty input consisting only of whitespace takes the
plain-text path (it cannot contain a heading tag), trims to nothing, so
no block is emitted and — whatever the title and environment — the
result is the empty string. -/
theorem claim10_whitespace_only_input_is_empty (s : String) (title : Option String)
    (domOk : Bool) (hne : s ≠ "") (hws : ∀ c ∈ s.data, isJsWs c = true) :
    hasHtmlHeadings s = false ∧ formatChapterContent domOk s title = "" := by
  have hscan : hasHtmlHeadings s = false := hasHeadScan_false_of_ws s.data hws
  refine ⟨hscan, ?_⟩
  have htrim : jsTrim s = "" := by
    simp [jsTrim, trimChars, dropEndWs, dropWhile_all _ _ hws]
  rw [show formatChapterContent domOk s title = plainPath domOk s title from by
    simp [formatChapterContent, hne, hscan]]
  show stripDupBuilt domOk (formatLines false none (splitLines (stripBold (jsTrim s)))) title = ""
  rw [htrim]
  cases title with
  | none => cases domOk <;> rfl
  | some t =>
    cases domOk with
    | false => rfl
    | true =>
      show (if t = "" then builtOf [] else _) = ""
      by_cases ht : t = ""
      · rw [if_pos ht]
        rfl
      · rw [if_neg ht]
        rfl

/-- Witness for C10 on a concrete whitespace-only input. -/
theorem claim10_witness :
    (" \n\t " : String) ≠ "" ∧ (∀ c ∈ (" \n\t " : String).data, isJsWs c = true) ∧
    (hasHtmlHeadings " \n\t " = false ∧
      formatChapterContent true " \n\t " (some "Chapter 1: Intro") = "") := by
  refine ⟨by decide, by decide, ?_⟩
  exact claim10_whitespace_only_input_is_empty " \n\t " (some "Chapter 1: Intro") true
    (by decide) (by decide)
